import Mathlib

/-!
Verification of the maraton-cali route-animation core.

Shallow embedding of the playback core of the repository:
* `src/composables/useRouteAnimation.js` — the animation clock
  (`_setSpeed`, `_seekToPhase`, `_togglePause`, the `frame` loop) and the
  coordinate sampler (`coordAtPhase`, `bearingAtPhase`);
* `src/composables/useMarkers.js` — mark clustering (`computeClusters`,
  `finaliseCluster`) and the sequential geofence cursor
  (`recalibrateCursor`, `updateHeadPosition`, `resetPopup`);
* `src/composables/useMarkPopup.js` — the popup dedup layer (`show`, `hide`).

JavaScript numbers are modelled as exact rationals (`ℚ`); the one claim that
is about IEEE special values (division by a zero duration) uses the `JSNum`
type, which carries `NaN` and the infinities explicitly.  DOM, Mapbox and
scheduling side effects carry no state that the claims mention and are
dropped; popup render calls are counted by a ghost counter, geofence popup
commands are returned as an explicit event list.
-/

namespace MaratonCali

/-! ### Animation clock — `useRouteAnimation.js`

The captured closure variables of `setup()` that the control closures
mutate: `startTime` (undefined until the first frame assigns it),
`isPaused`, `pauseTimestamp` (null while playing), `speed`, `hasStarted`,
`_internalPhase`, and the presence of `savedCameraState`.  `duration` is a
per-route constant and is passed as a parameter. -/

structure ClockState where
  startTime : Option ℚ
  isPaused : Bool
  pauseTimestamp : Option ℚ
  speed : ℚ
  hasStarted : Bool
  internalPhase : ℚ
  savedCamera : Bool
deriving DecidableEq

/-- Phase formula of the `frame` loop:
`Math.min((time - startTime) / (duration / speed), 1)`.  Exact-rational
model, adequate whenever `duration / speed ≠ 0` (the degenerate case is
analysed separately on `JSNum`). -/
def phaseAt (duration speed startTime now : ℚ) : ℚ :=
  min ((now - startTime) / (duration / speed)) 1

/-- JavaScript `a || b` on a nullable number: `null` and `0` are falsy. -/
def jsOrElse (o : Option ℚ) (d : ℚ) : ℚ :=
  match o with
  | none => d
  | some x => if x = 0 then d else x

/-- The `effectiveNow` of `_setSpeed`: `isPaused ? pauseTimestamp : now`.
`pauseTimestamp` is non-null whenever `isPaused` holds (it is assigned at
initialisation and on every pause before `isPaused` can next be read), so
the `getD now` default is never exercised on reachable states. -/
def effNow (s : ClockState) (now : ℚ) : ℚ :=
  if s.isPaused then s.pauseTimestamp.getD now else now

/-- The `_setSpeed` closure (`useRouteAnimation.js` lines 148–159). -/
def setSpeed (duration newSpeed now : ℚ) (s : ClockState) : ClockState :=
  let effectiveNow := effNow s now
  match s.startTime with
  | some st =>
    let elapsed := effectiveNow - st
    let currentPhase := min (elapsed / (duration / s.speed)) 1
    { s with speed := newSpeed
             startTime := some (effectiveNow - currentPhase * (duration / newSpeed)) }
  | none => { s with speed := newSpeed }

/-- The `_seekToPhase` closure (`useRouteAnimation.js` lines 411–434).
Camera-lerp reset, display refresh and frame-loop restart touch no clock
field and are dropped.  Note the source uses `pauseTimestamp || now` here
(JS falsy test), unlike `_setSpeed`. -/
def seekToPhase (duration targetPhase now : ℚ) (s : ClockState) : ClockState :=
  if s.hasStarted = false then s
  else
    let clampedPhase := max 0 (min 1 targetPhase)
    let effectiveNow := if s.isPaused then jsOrElse s.pauseTimestamp now else now
    { s with startTime := some (effectiveNow - clampedPhase * (duration / s.speed))
             internalPhase := clampedPhase }

/-- The `_togglePause` closure (`useRouteAnimation.js` lines 309–408).
`now` is the `performance.now()` at which the branch body runs; on the
resume path with a saved camera the `startTime` shift runs inside the
`moveend` callback, so `now` is the time of that callback — the final
field values are the same either way.  Map fly-to and layer toggling carry
no clock state and are dropped. -/
def togglePause (playing : Bool) (now : ℚ) (s : ClockState) : ClockState :=
  if playing = true ∧ s.hasStarted = false then
    -- first play: the moveend callback clears startTime; the first frame sets it
    { s with hasStarted := true, isPaused := false, pauseTimestamp := none,
             startTime := none }
  else if playing = true ∧ s.isPaused = true then
    -- resume from pause
    { s with isPaused := false
             startTime :=
               match s.startTime, s.pauseTimestamp with
               | some st, some pt => some (st + (now - pt))
               | o, _ => o
             pauseTimestamp := none
             savedCamera := false }
  else if playing = false ∧ s.isPaused = false then
    -- pause
    { s with isPaused := true, pauseTimestamp := some now, savedCamera := true }
  else s

/-! ### JS-number model for the degenerate-input analysis (claim about
division-by-zero guards).  Only the value classes that the phase formula
can produce are distinguished. -/

inductive JSNum where
  | nan : JSNum
  | posInf : JSNum
  | negInf : JSNum
  | fin : ℚ → JSNum
deriving DecidableEq

/-- JavaScript division restricted to finite operands (the phase formula
only ever divides finite numbers): `0/0 = NaN`, `x/0 = ±Infinity` by the
sign of `x`, otherwise exact. Non-finite operands do not arise in the
modelled expression and map to `NaN`. -/
def jsDiv : JSNum → JSNum → JSNum
  | .fin a, .fin b =>
    if b = 0 then
      if a = 0 then .nan else if 0 < a then .posInf else .negInf
    else .fin (a / b)
  | _, _ => .nan

/-- JavaScript `Math.min` on two arguments: `NaN` is absorbing, otherwise
the usual order with the infinities at the ends. -/
def jsMin : JSNum → JSNum → JSNum
  | .nan, _ => .nan
  | _, .nan => .nan
  | .negInf, _ => .negInf
  | _, .negInf => .negInf
  | .posInf, b => b
  | a, .posInf => a
  | .fin a, .fin b => .fin (min a b)

/-- The `frame` phase computation with JS special-value semantics:
`Math.min((time - startTime) / (duration / speed), 1)`
(`useRouteAnimation.js` line 279).  On the first frame the source executes
`if (!startTime) startTime = time`, so `time = startTime` there. -/
def framePhase (duration speed startTime time : ℚ) : JSNum :=
  jsMin (jsDiv (.fin (time - startTime)) (jsDiv (.fin duration) (.fin speed))) (.fin 1)

/-! ### Coordinate sampler — `setup()` in `useRouteAnimation.js`

`sampledCoords` is a `NUM_SAMPLES + 1`-entry array precomputed once; it is
modelled as an arbitrary list of `[lng, lat]` pairs (its entries come from
`turf.along`, an external collaborator).  An out-of-bounds JS array read
yields `undefined` and the subsequent `a[0]` faults, so the lookup returns
an `Option` that is `none` exactly when a read is out of bounds. -/

def NUM_SAMPLES : ℕ := 1000

/-- Clamp of the phase argument: `Math.max(0, Math.min(1, phase))`. -/
def clamp01 (p : ℚ) : ℚ := max 0 (min 1 p)

/-- Index part of `coordAtPhase`:
`Math.min(Math.floor(t), NUM_SAMPLES - 1)` with `t = clamp01 p * NUM_SAMPLES`.
`t ≥ 0`, so `Int.toNat` is exact on the floor. -/
def idxAt (p : ℚ) : ℕ :=
  min (Int.toNat ⌊clamp01 p * (NUM_SAMPLES : ℚ)⌋) (NUM_SAMPLES - 1)

/-- Linear interpolation `a + (b - a) * frac`. -/
def lerpQ (a b frac : ℚ) : ℚ := a + (b - a) * frac

/-- The `coordAtPhase` lookup (`useRouteAnimation.js` lines 90–100), with
the source's locals `t = clamp01 p * NUM_SAMPLES`, `idx = idxAt p` and
`frac = t - idx` inlined. -/
def coordAtPhase (s : List (ℚ × ℚ)) (p : ℚ) : Option (ℚ × ℚ) :=
  match s.get? (idxAt p), s.get? (idxAt p + 1) with
  | some a, some b =>
    some (lerpQ a.1 b.1 (clamp01 p * (NUM_SAMPLES : ℚ) - (idxAt p : ℚ)),
          lerpQ a.2 b.2 (clamp01 p * (NUM_SAMPLES : ℚ) - (idxAt p : ℚ)))
  | _, _ => none

/-- The lookahead phase of `bearingAtPhase`:
`Math.min(phase + 0.005, 1)` (`useRouteAnimation.js` line 111). -/
def lookAheadPhase (p : ℚ) : ℚ := min (p + 1/200) 1

/-! ### Mark clustering — `useMarkers.js` -/

/-- Distance threshold (degrees) for clustering: `0.0005`. -/
def CLUSTER_THRESHOLD : ℚ := 1/2000

/-- Distance threshold (degrees) for popup triggering: `0.002`. -/
def POPUP_THRESHOLD : ℚ := 1/500

/-- Squared Euclidean distance in degrees (`sqDist`, lines 37–41). -/
def sqDist (lng1 lat1 lng2 lat2 : ℚ) : ℚ :=
  (lng1 - lng2) * (lng1 - lng2) + (lat1 - lat2) * (lat1 - lat2)

/-- A classified mark: original feature index (used for `seqFraction`) and
planar coordinates.  Name and type tag play no role in clustering or in the
cursor and are omitted. -/
structure Mark where
  idx : ℕ
  lng : ℚ
  lat : ℚ
deriving DecidableEq

/-- Order on marks by original feature index (the order in which
`marksData.features` delivers them, preserved by `map`/`filter`). -/
def markLE (a b : Mark) : Prop := a.idx ≤ b.idx

instance : DecidableRel markLE := fun a b => Nat.decLe a.idx b.idx

/-- A cluster as produced by `finaliseCluster`: centroid plus members. -/
structure Cluster where
  center : ℚ × ℚ
  marks : List Mark
deriving DecidableEq

/-- Centroid computation of `finaliseCluster` (lines 84–90). -/
def finaliseCluster (group : List Mark) : Cluster :=
  { center := ((group.map Mark.lng).sum / (group.length : ℚ),
               (group.map Mark.lat).sum / (group.length : ℚ))
    marks := group }

/-- Loop body of `computeClusters` (lines 60–72): `prev` is `marks[i-1]`,
`group` the open cluster, the list argument the remaining marks. -/
def clusterLoop (prev : Mark) (group : List Mark) : List Mark → List (List Mark)
  | [] => [group]
  | curr :: rest =>
    if sqDist prev.lng prev.lat curr.lng curr.lat < CLUSTER_THRESHOLD * CLUSTER_THRESHOLD then
      clusterLoop curr (group ++ [curr]) rest
    else
      group :: clusterLoop curr [curr] rest

/-- The `computeClusters` function (`useMarkers.js` lines 53–77). -/
def computeClusters : List Mark → List Cluster
  | [] => []
  | m :: rest => (clusterLoop m [m] rest).map finaliseCluster

/-- Modelled from the spec's words, for the refinement half of the
clustering claim: walk the ordered sequence; a mark joins the cluster of
the immediately following walk position iff its squared planar distance to
that neighbour is below the fixed threshold, otherwise it opens its own
cluster.  Stated structurally so that the join-iff-close-to-previous
property is visible in the recursion. -/
def groupSpec : List Mark → List (List Mark)
  | [] => []
  | [m] => [[m]]
  | m :: n :: rest =>
    match groupSpec (n :: rest) with
    | [] => [[m]]
    | g :: gs =>
      if sqDist m.lng m.lat n.lng n.lat < CLUSTER_THRESHOLD * CLUSTER_THRESHOLD then
        (m :: g) :: gs
      else
        [m] :: g :: gs

/-! ### Sequential geofence cursor — `useMarkers.js` lines 144–234

`updateHeadPosition` reads only each cluster's `center` and `seqFraction`;
popup show/hide commands are returned as an explicit event list. -/

/-- A cluster as seen by the cursor: centroid, members and the
`seqFraction` assigned after clustering (average original index divided by
the last index).  The claims quantify over arbitrary cluster sequences, so
the fraction is a field rather than recomputed here. -/
structure SeqCluster where
  center : ℚ × ℚ
  marks : List Mark
  seqFraction : ℚ
deriving DecidableEq

instance : Inhabited SeqCluster := ⟨{ center := (0, 0), marks := [], seqFraction := 0 }⟩

/-- Mutable cursor state of `useMarkers`: `nextClusterIdx`,
`activeClusterIdx` (the source uses the sentinel `-1` for "no popup", kept
as an integer) and `wasInactive`. -/
structure GeoState where
  nextClusterIdx : ℕ
  activeClusterIdx : ℤ
  wasInactive : Bool
deriving DecidableEq

/-- Popup commands issued by the geofence engine. -/
inductive PopupEvent where
  | shown (i : ℕ) : PopupEvent
  | hidden : PopupEvent
deriving DecidableEq

/-- Cursor target of `recalibrateCursor` (lines 160–171): the first index
whose `seqFraction` is at least `phase - 0.02`, defaulting to
`clusters.length` ("all visited") when no cluster qualifies — on the empty
suffix the recursion contributes `0`, so the whole call returns the length
exactly as the source loop's default does. -/
def firstSeqIdx (phase : ℚ) : List SeqCluster → ℕ
  | [] => 0
  | c :: rest => if phase - 1/50 ≤ c.seqFraction then 0 else firstSeqIdx phase rest + 1

/-- The `recalibrateCursor` function (lines 160–171). -/
def recalibrateCursor (clusters : List SeqCluster) (phase : ℚ) (s : GeoState) : GeoState :=
  { s with nextClusterIdx := firstSeqIdx phase clusters, activeClusterIdx := -1 }

/-- The `updateHeadPosition` function (lines 185–223).  The two indexed
cluster reads use `getD`: under the cursor invariant proved below both
indices are in range, exactly where the source's unguarded `clusters[i]`
reads are valid. -/
def updateHeadPosition (clusters : List SeqCluster) (lng lat phase : ℚ) (active : Bool)
    (s : GeoState) : GeoState × List PopupEvent :=
  if active = false then
    if 0 ≤ s.activeClusterIdx then
      ({ s with activeClusterIdx := -1, wasInactive := true }, [.hidden])
    else
      ({ s with wasInactive := true }, [])
  else
    -- recalibrate on transition from inactive to active
    let s1 := if s.wasInactive then recalibrateCursor clusters phase { s with wasInactive := false }
              else s
    -- all clusters visited
    if clusters.length ≤ s1.nextClusterIdx then (s1, [])
    else if 0 ≤ s1.activeClusterIdx then
      -- a popup is showing: hide it and advance once the head moves away
      let ac := clusters.getD s1.activeClusterIdx.toNat default
      if POPUP_THRESHOLD * POPUP_THRESHOLD ≤ sqDist lng lat ac.center.1 ac.center.2 then
        ({ s1 with nextClusterIdx := s1.activeClusterIdx.toNat + 1, activeClusterIdx := -1 },
         [.hidden])
      else (s1, [])
    else
      -- no popup showing: test the next expected cluster
      let c := clusters.getD s1.nextClusterIdx default
      if sqDist lng lat c.center.1 c.center.2 < POPUP_THRESHOLD * POPUP_THRESHOLD then
        ({ s1 with activeClusterIdx := (s1.nextClusterIdx : ℤ) }, [.shown s1.nextClusterIdx])
      else (s1, [])

/-- Cursor state established by `resetPopup` (lines 229–234), which is also
the initial state of a fresh `useMarkers` instance. -/
def resetPopup : GeoState :=
  { nextClusterIdx := 0, activeClusterIdx := -1, wasInactive := true }

/-- One per-frame input to `updateHeadPosition`. -/
structure HeadInput where
  lng : ℚ
  lat : ℚ
  phase : ℚ
deriving DecidableEq

/-- A sequence of `updateHeadPosition` calls with `active = true`
(playback without pauses or seeks), with the issued popup events
concatenated in order. -/
def runUpdates (clusters : List SeqCluster) : List HeadInput → GeoState → GeoState × List PopupEvent
  | [], s => (s, [])
  | inp :: rest, s =>
    let r1 := updateHeadPosition clusters inp.lng inp.lat inp.phase true s
    let r2 := runUpdates clusters rest r1.1
    (r2.1, r1.2 ++ r2.2)

/-- Indices of the `shown` events of an event list, in order. -/
def showIndices (evs : List PopupEvent) : List ℕ :=
  evs.filterMap fun e => match e with | .shown i => some i | .hidden => none

/-- Smallest index a future `shown` event can carry: past the active
cluster when a popup is showing, else the cursor itself. -/
def lowerShowBound (s : GeoState) : ℕ :=
  if 0 ≤ s.activeClusterIdx then s.activeClusterIdx.toNat + 1 else s.nextClusterIdx

/-- Cursor invariant maintained by every `active = true` call: the state is
marked active, and while a popup is showing the active cluster is exactly
the cursor target and is in range. -/
def CursorInv (clusters : List SeqCluster) (s : GeoState) : Prop :=
  s.wasInactive = false ∧
  (0 ≤ s.activeClusterIdx →
    s.activeClusterIdx = (s.nextClusterIdx : ℤ) ∧ s.nextClusterIdx < clusters.length)

/-! ### Popup dedup layer — `useMarkPopup.js`

The cache key is the string `` `${lngLat[0]},${lngLat[1]}` ``; on exact
coordinate pairs that string is a faithful identity, so the pair itself is
the key.  `renders` is a ghost counter of the underlying
`popup.setLngLat(...).setHTML(...)` render/positioning calls. -/

structure PopupState where
  isVisible : Bool
  currentKey : Option (ℚ × ℚ)
  renders : ℕ
deriving DecidableEq

/-- The `show` function (`useMarkPopup.js` lines 181–198). -/
def showPopup (lngLat : ℚ × ℚ) (s : PopupState) : PopupState :=
  if s.isVisible = true ∧ s.currentKey = some lngLat then s
  else
    { isVisible := true, currentKey := some lngLat, renders := s.renders + 1 }

/-- The `hide` function (`useMarkPopup.js` lines 203–209). -/
def hidePopup (s : PopupState) : PopupState :=
  if s.isVisible then
    { isVisible := false, currentKey := none, renders := s.renders }
  else s

/-! ## Theorems -/

/-- Helper: clamped-at-one phase survives re-expansion by a nonzero rate. -/
theorem min_one_mul_div_cancel (x r : ℚ) (hr : r ≠ 0) :
    min (min x 1 * r / r) 1 = min x 1 := by
  rw [mul_div_assoc, div_self hr, mul_one, min_eq_left (min_le_right x 1)]

/-- Claim C1: for positive duration and positive old/new speed multipliers,
on a started clock (startTime defined) `setSpeed(newSpeed)` leaves the
phase unchanged: the phase recomputed at the same instant (the paused
timestamp when paused, now when playing) from the new referenceStartTime
with the new speed equals the phase computed from the old one with the old
speed, clamped at 1. -/
theorem setSpeed_preserves_phase
    (duration oldSpeed newSpeed now st : ℚ) (s : ClockState)
    (hd : 0 < duration) (ho : 0 < oldSpeed) (hn : 0 < newSpeed)
    (hsp : s.speed = oldSpeed) (hst : s.startTime = some st) :
    ∃ st', (setSpeed duration newSpeed now s).startTime = some st' ∧
      phaseAt duration newSpeed st' (effNow s now)
        = phaseAt duration oldSpeed st (effNow s now) := by
  refine ⟨effNow s now
      - min ((effNow s now - st) / (duration / oldSpeed)) 1 * (duration / newSpeed), ?_, ?_⟩
  · simp [setSpeed, hst, hsp]
  · unfold phaseAt
    have hr : duration / newSpeed ≠ 0 := ne_of_gt (div_pos hd hn)
    have h1 : effNow s now - (effNow s now
        - min ((effNow s now - st) / (duration / oldSpeed)) 1 * (duration / newSpeed))
        = min ((effNow s now - st) / (duration / oldSpeed)) 1 * (duration / newSpeed) := by
      ring
    rw [h1, min_one_mul_div_cancel _ _ hr]

/-- Witness for C1 at duration 10, speeds 1 → 2, paused = false, startTime 0. -/
theorem setSpeed_preserves_phase_witness :
    ((0 : ℚ) < 10 ∧ (0 : ℚ) < 1 ∧ (0 : ℚ) < 2 ∧
      (ClockState.mk (some 0) false none 1 true 0 false).speed = 1 ∧
      (ClockState.mk (some 0) false none 1 true 0 false).startTime = some 0) ∧
    (∃ st', (setSpeed 10 2 5 (ClockState.mk (some 0) false none 1 true 0 false)).startTime
          = some st' ∧
      phaseAt 10 2 st' (effNow (ClockState.mk (some 0) false none 1 true 0 false) 5)
        = phaseAt 10 1 0 (effNow (ClockState.mk (some 0) false none 1 true 0 false) 5)) :=
  ⟨⟨by norm_num, by norm_num, by norm_num, rfl, rfl⟩,
    setSpeed_preserves_phase 10 1 2 5 0 _ (by norm_num) (by norm_num) (by norm_num) rfl rfl⟩

/-- Claim C2: after the controller has started, `seek(p)` (any real `p`,
in range or not) sets the cached phase to `clamp(p, 0, 1)` and recomputes
`referenceStartTime` so that the phase at the current instant (the pause
timestamp when paused, now when playing) is exactly `clamp(p, 0, 1)`. -/
theorem seek_sets_phase
    (duration p now : ℚ) (s : ClockState)
    (hd : 0 < duration) (hsp : 0 < s.speed) (hs : s.hasStarted = true) :
    (seekToPhase duration p now s).internalPhase = max 0 (min 1 p) ∧
    ∃ st', (seekToPhase duration p now s).startTime = some st' ∧
      phaseAt duration s.speed st'
          (if s.isPaused then jsOrElse s.pauseTimestamp now else now)
        = max 0 (min 1 p) := by
  have hns : ¬ s.hasStarted = false := by simp [hs]
  refine ⟨by simp [seekToPhase, hns],
    (if s.isPaused then jsOrElse s.pauseTimestamp now else now)
      - max 0 (min 1 p) * (duration / s.speed), ?_, ?_⟩
  · simp [seekToPhase, hns]
  · unfold phaseAt
    have hr : duration / s.speed ≠ 0 := ne_of_gt (div_pos hd hsp)
    have hcp : max 0 (min 1 p) ≤ 1 := max_le (by norm_num) (min_le_left 1 p)
    have h1 : (if s.isPaused then jsOrElse s.pauseTimestamp now else now)
        - ((if s.isPaused then jsOrElse s.pauseTimestamp now else now)
            - max 0 (min 1 p) * (duration / s.speed))
        = max 0 (min 1 p) * (duration / s.speed) := by ring
    rw [h1, mul_div_assoc, div_self hr, mul_one, min_eq_left hcp]

/-- Witness for C2: seek to 1.4 on a playing clock clamps to phase 1. -/
theorem seek_sets_phase_witness :
    ((0 : ℚ) < 10 ∧ (0 : ℚ) < (ClockState.mk (some 0) false none 1 true 0 false).speed ∧
      (ClockState.mk (some 0) false none 1 true 0 false).hasStarted = true) ∧
    ((seekToPhase 10 (7/5) 3 (ClockState.mk (some 0) false none 1 true 0 false)).internalPhase
        = max 0 (min 1 (7/5)) ∧
      ∃ st', (seekToPhase 10 (7/5) 3
            (ClockState.mk (some 0) false none 1 true 0 false)).startTime = some st' ∧
        phaseAt 10 (ClockState.mk (some 0) false none 1 true 0 false).speed st'
            (if (ClockState.mk (some 0) false none 1 true 0 false).isPaused
             then jsOrElse (ClockState.mk (some 0) false none 1 true 0 false).pauseTimestamp 3
             else 3)
          = max 0 (min 1 (7/5))) :=
  ⟨⟨by norm_num, by norm_num, rfl⟩,
    seek_sets_phase 10 (7/5) 3 _ (by norm_num) (by norm_num) rfl⟩

/-- Claim C3: pausing a playing clock at time `t1` and resuming at any
later instant `t2` shifts `referenceStartTime` forward by exactly the
paused duration `t2 - t1`, so the phase at the instant of resume equals
the phase frozen at pause. -/
theorem pause_resume_preserves_phase
    (duration t1 t2 st : ℚ) (s : ClockState)
    (hplay : s.isPaused = false) (hstart : s.hasStarted = true)
    (hst : s.startTime = some st) :
    (togglePause true t2 (togglePause false t1 s)).startTime = some (st + (t2 - t1)) ∧
    phaseAt duration s.speed (st + (t2 - t1)) t2 = phaseAt duration s.speed st t1 := by
  constructor
  · simp [togglePause, hplay, hstart, hst]
  · unfold phaseAt
    have h1 : t2 - (st + (t2 - t1)) = t1 - st := by ring
    rw [h1]

/-- Witness for C3: pause at t=3 and resume at t=5 shifts startTime by 2
and leaves the phase of the 10-unit clock unchanged. -/
theorem pause_resume_preserves_phase_witness :
    ((ClockState.mk (some 0) false none 1 true 0 false).isPaused = false ∧
      (ClockState.mk (some 0) false none 1 true 0 false).hasStarted = true ∧
      (ClockState.mk (some 0) false none 1 true 0 false).startTime = some 0) ∧
    ((togglePause true 5 (togglePause false 3
          (ClockState.mk (some 0) false none 1 true 0 false))).startTime
        = some (0 + (5 - 3)) ∧
      phaseAt 10 (ClockState.mk (some 0) false none 1 true 0 false).speed (0 + (5 - 3)) 5
        = phaseAt 10 (ClockState.mk (some 0) false none 1 true 0 false).speed 0 3) :=
  ⟨⟨rfl, rfl, rfl⟩, pause_resume_preserves_phase 10 3 5 0 _ rfl rfl rfl⟩

/-- Sanity bridge: on non-degenerate inputs (nonzero duration and speed)
the JS-number frame formula agrees with the exact-rational `phaseAt`. -/
theorem framePhase_agrees (d sp st t : ℚ) (hd : d ≠ 0) (hsp : sp ≠ 0) :
    framePhase d sp st t = JSNum.fin (phaseAt d sp st t) := by
  have h2 : d / sp ≠ 0 := div_ne_zero hd hsp
  simp [framePhase, phaseAt, jsDiv, jsMin, hsp, h2]

/-- Claim C7 (the code lacks the claimed guard): with `duration = 0` the
first frame — where the source has just executed
`if (!startTime) startTime = time`, so `time = startTime` — computes
`0 / (0 / speed) = 0 / 0 = NaN` as the phase, and every later frame
computes phase 1, not the claimed pinned 0.  Neither the frame loop nor
`_setSpeed` guards the division. -/
theorem framePhase_zero_duration_nan :
    framePhase 0 1 100 100 = JSNum.nan ∧
    framePhase 0 1 100 200 = JSNum.fin 1 ∧
    ¬ framePhase 0 1 100 200 = JSNum.fin 0 := by
  refine ⟨by norm_num [framePhase, jsDiv, jsMin], ?_, ?_⟩ <;>
    norm_num [framePhase, jsDiv, jsMin]

/-- Claim C8: a second `show` at the same anchor while the popup is
visible is a no-op (the state is unchanged, so from a hidden start two
identical `show` calls perform exactly one underlying render/positioning
call), and `hide` clears both the visibility flag and the cached anchor
identity, so a `show` after `hide` renders again. -/
theorem showPopup_dedup (s : PopupState) (c : ℚ × ℚ) (k : Option (ℚ × ℚ)) (n : ℕ) :
    showPopup c (showPopup c s) = showPopup c s ∧
    (showPopup c (showPopup c (PopupState.mk false k n))).renders = n + 1 ∧
    (hidePopup (showPopup c s)).isVisible = false ∧
    (hidePopup (showPopup c s)).currentKey = none ∧
    (showPopup c (hidePopup (showPopup c s))).renders = (showPopup c s).renders + 1 := by
  by_cases h : s.isVisible = true ∧ s.currentKey = some c
  · simp [showPopup, hidePopup, h, h.1]
  · simp [showPopup, hidePopup, h]

/-- Helper: the clamp fixes points of the unit interval. -/
theorem clamp01_eq_self (p : ℚ) (h0 : 0 ≤ p) (h1 : p ≤ 1) : clamp01 p = p := by
  rw [clamp01, min_eq_right h1, max_eq_right h0]

/-- Helper: clamping is idempotent. -/
theorem clamp01_idem (p : ℚ) : clamp01 (clamp01 p) = clamp01 p :=
  clamp01_eq_self _ (le_max_left 0 _) (max_le (by norm_num) (min_le_left 1 p))

/-- Helper: the clamped-and-floored sample index is within the table. -/
theorem idxAt_le (p : ℚ) : idxAt p ≤ NUM_SAMPLES - 1 := by
  unfold idxAt
  exact min_le_right _ _

/-- Helper: both table reads of `coordAtPhase` are in bounds on a
`NUM_SAMPLES + 1`-entry table, so the lookup yields a value. -/
theorem coordAtPhase_isSome (s : List (ℚ × ℚ)) (q : ℚ)
    (hl : s.length = NUM_SAMPLES + 1) : (coordAtPhase s q).isSome = true := by
  have hN : NUM_SAMPLES = 1000 := rfl
  have hb : idxAt q ≤ NUM_SAMPLES - 1 := idxAt_le q
  have h1 : idxAt q < s.length := by omega
  have h2 : idxAt q + 1 < s.length := by omega
  rw [coordAtPhase, List.get?_eq_get h1, List.get?_eq_get h2]
  rfl

/-- Claim C10: `coordAtPhase` is total for every real phase argument, in
range or not: the lower sample index is clamped into
`[0, NUM_SAMPLES - 1]`, so both reads (`idx` and `idx + 1`) are in bounds
on the `NUM_SAMPLES + 1`-entry table; moreover
`coordAtPhase p = coordAtPhase (clamp(p,0,1))`, and the lookahead phase
`min(p + 0.005, 1)` used by `bearingAtPhase` also yields an in-bounds
lookup. -/
theorem coordAtPhase_total (s : List (ℚ × ℚ)) (p : ℚ)
    (hl : s.length = NUM_SAMPLES + 1) :
    idxAt p ≤ NUM_SAMPLES - 1 ∧
    (coordAtPhase s p).isSome = true ∧
    coordAtPhase s p = coordAtPhase s (clamp01 p) ∧
    (coordAtPhase s (lookAheadPhase p)).isSome = true := by
  refine ⟨idxAt_le p, coordAtPhase_isSome s p hl, ?_, coordAtPhase_isSome s _ hl⟩
  unfold coordAtPhase idxAt
  rw [clamp01_idem]

/-- Witness for C10 on a concrete 1001-entry table at the out-of-range
phase 7/3. -/
theorem coordAtPhase_total_witness :
    (List.replicate 1001 ((0 : ℚ), (0 : ℚ))).length = NUM_SAMPLES + 1 ∧
    (idxAt (7/3) ≤ NUM_SAMPLES - 1 ∧
      (coordAtPhase (List.replicate 1001 ((0 : ℚ), (0 : ℚ))) (7/3)).isSome = true ∧
      coordAtPhase (List.replicate 1001 ((0 : ℚ), (0 : ℚ))) (7/3)
        = coordAtPhase (List.replicate 1001 ((0 : ℚ), (0 : ℚ))) (clamp01 (7/3)) ∧
      (coordAtPhase (List.replicate 1001 ((0 : ℚ), (0 : ℚ)))
          (lookAheadPhase (7/3))).isSome = true) :=
  ⟨by rw [List.length_replicate]; rfl, coordAtPhase_total _ _ (by rw [List.length_replicate]; rfl)⟩

/-- Claim C9: for every phase in `[0, 1]`, `coordAtPhase` returns the
linear interpolation of the two bracketing precomputed samples located via
`phase * NUM_SAMPLES`; in particular at phase 0.5 it returns exactly the
sampled coordinate at index `round(0.5 * NUM_SAMPLES) = 500`. -/
theorem coordAtPhase_bracketing (s : List (ℚ × ℚ)) (p : ℚ)
    (hl : s.length = NUM_SAMPLES + 1) (h0 : 0 ≤ p) (h1 : p ≤ 1) :
    (∃ a b, s.get? (idxAt p) = some a ∧ s.get? (idxAt p + 1) = some b ∧
      coordAtPhase s p
        = some (lerpQ a.1 b.1 (p * (NUM_SAMPLES : ℚ) - (idxAt p : ℚ)),
                lerpQ a.2 b.2 (p * (NUM_SAMPLES : ℚ) - (idxAt p : ℚ)))) ∧
    coordAtPhase s (1/2) = s.get? (Int.toNat (round ((1/2 : ℚ) * (NUM_SAMPLES : ℚ)))) := by
  have hN : NUM_SAMPLES = 1000 := rfl
  constructor
  · have hb : idxAt p ≤ NUM_SAMPLES - 1 := idxAt_le p
    have hi1 : idxAt p < s.length := by omega
    have hi2 : idxAt p + 1 < s.length := by omega
    refine ⟨s.get ⟨idxAt p, hi1⟩, s.get ⟨idxAt p + 1, hi2⟩,
      List.get?_eq_get hi1, List.get?_eq_get hi2, ?_⟩
    rw [coordAtPhase, List.get?_eq_get hi1, List.get?_eq_get hi2,
      clamp01_eq_self p h0 h1]
  · have hhalf : clamp01 ((1:ℚ)/2) = 1/2 := clamp01_eq_self _ (by norm_num) (by norm_num)
    have hcast : ((1:ℚ)/2) * ((NUM_SAMPLES : ℕ) : ℚ) = ((500 : ℕ) : ℚ) := by
      rw [hN]; norm_num
    have hround : Int.toNat (round ((1/2 : ℚ) * (NUM_SAMPLES : ℚ))) = 500 := by
      rw [hcast, round_natCast]; rfl
    have hidx : idxAt ((1:ℚ)/2) = 500 := by
      unfold idxAt
      rw [hhalf, hcast, Int.floor_natCast, hN]
      rfl
    have hi1 : (500 : ℕ) < s.length := by omega
    have hi2 : (500 : ℕ) + 1 < s.length := by omega
    rw [hround, coordAtPhase, hidx, List.get?_eq_get hi1, List.get?_eq_get hi2,
      hhalf, hcast]
    simp [lerpQ]

/-- Witness for C9 on a concrete 1001-entry table at phase 1/2. -/
theorem coordAtPhase_bracketing_witness :
    ((List.replicate 1001 ((0 : ℚ), (0 : ℚ))).length = NUM_SAMPLES + 1 ∧
      (0 : ℚ) ≤ 1/2 ∧ (1/2 : ℚ) ≤ 1) ∧
    ((∃ a b, (List.replicate 1001 ((0 : ℚ), (0 : ℚ))).get? (idxAt (1/2)) = some a ∧
        (List.replicate 1001 ((0 : ℚ), (0 : ℚ))).get? (idxAt (1/2) + 1) = some b ∧
        coordAtPhase (List.replicate 1001 ((0 : ℚ), (0 : ℚ))) (1/2)
          = some (lerpQ a.1 b.1 ((1/2) * (NUM_SAMPLES : ℚ) - (idxAt (1/2) : ℚ)),
                  lerpQ a.2 b.2 ((1/2) * (NUM_SAMPLES : ℚ) - (idxAt (1/2) : ℚ)))) ∧
      coordAtPhase (List.replicate 1001 ((0 : ℚ), (0 : ℚ))) (1/2)
        = (List.replicate 1001 ((0 : ℚ), (0 : ℚ))).get?
            (Int.toNat (round ((1/2 : ℚ) * (NUM_SAMPLES : ℚ))))) :=
  ⟨⟨by rw [List.length_replicate]; rfl, by norm_num, by norm_num⟩,
    coordAtPhase_bracketing _ _ (by rw [List.length_replicate]; rfl) (by norm_num) (by norm_num)⟩

/-- Helper: unfolding equation of `groupSpec` on two or more marks. -/
theorem groupSpec_cons_cons (m n : Mark) (rest : List Mark) :
    groupSpec (m :: n :: rest)
      = match groupSpec (n :: rest) with
        | [] => [[m]]
        | g :: gs =>
          if sqDist m.lng m.lat n.lng n.lat < CLUSTER_THRESHOLD * CLUSTER_THRESHOLD then
            (m :: g) :: gs
          else
            [m] :: g :: gs := rfl

/-- Helper: unfolding equations of `clusterLoop`. -/
theorem clusterLoop_nil (prev : Mark) (acc : List Mark) :
    clusterLoop prev acc [] = [acc] := rfl

/-- Helper: cons case of `clusterLoop`. -/
theorem clusterLoop_cons (prev : Mark) (acc : List Mark) (curr : Mark) (rest : List Mark) :
    clusterLoop prev acc (curr :: rest)
      = if sqDist prev.lng prev.lat curr.lng curr.lat
            < CLUSTER_THRESHOLD * CLUSTER_THRESHOLD then
          clusterLoop curr (acc ++ [curr]) rest
        else
          acc :: clusterLoop curr [curr] rest := rfl

/-- Helper: the first group of `groupSpec` on a nonempty list starts with
the first mark. -/
theorem groupSpec_head_cons (l : List Mark) : ∀ x : Mark,
    ∃ t gs, groupSpec (x :: l) = (x :: t) :: gs := by
  induction l with
  | nil => exact fun x => ⟨[], [], rfl⟩
  | cons y l' ih =>
    intro x
    obtain ⟨t', gs', h⟩ := ih y
    by_cases hc : sqDist x.lng x.lat y.lng y.lat < CLUSTER_THRESHOLD * CLUSTER_THRESHOLD
    · refine ⟨y :: t', gs', ?_⟩
      rw [groupSpec_cons_cons, h]
      dsimp only
      rw [if_pos hc]
    · refine ⟨[], (y :: t') :: gs', ?_⟩
      rw [groupSpec_cons_cons, h]
      dsimp only
      rw [if_neg hc]

/-- Helper: the accumulator-passing loop of the source refines the
structural walk `groupSpec`. -/
theorem clusterLoop_eq_groupSpec (rest : List Mark) :
    ∀ (prev : Mark) (acc t : List Mark) (gs : List (List Mark)),
      groupSpec (prev :: rest) = (prev :: t) :: gs →
      clusterLoop prev acc rest = (acc ++ t) :: gs := by
  induction rest with
  | nil =>
    intro prev acc t gs h
    have h' : ((prev :: ([] : List Mark)) :: ([] : List (List Mark)))
        = (prev :: t) :: gs := h
    injection h' with h1 h2
    injection h1 with _ h3
    rw [clusterLoop_nil, ← h3, ← h2]
    simp
  | cons curr rest' ih =>
    intro prev acc t gs h
    obtain ⟨t', gs', hh⟩ := groupSpec_head_cons rest' curr
    by_cases hc : sqDist prev.lng prev.lat curr.lng curr.lat
        < CLUSTER_THRESHOLD * CLUSTER_THRESHOLD
    · rw [groupSpec_cons_cons, hh] at h
      dsimp only at h
      rw [if_pos hc] at h
      injection h with h1 h2
      injection h1 with _ h3
      rw [clusterLoop_cons, if_pos hc, ih curr (acc ++ [curr]) t' gs' hh, ← h3, ← h2]
      simp
    · rw [groupSpec_cons_cons, hh] at h
      dsimp only at h
      rw [if_neg hc] at h
      injection h with h1 h2
      injection h1 with _ h3
      rw [clusterLoop_cons, if_neg hc, ih curr [curr] t' gs' hh, ← h3, ← h2]
      simp

/-- Claim C6: `computeClusters` walks the mark sequence in order and a
mark shares a cluster with its immediate predecessor iff their squared
planar distance is below the fixed threshold (the walk `groupSpec`, stated
structurally, is exactly this rule and the two agree on every input); the
function is deterministic, and sorting an already-sorted input (by
original feature order) leaves the clustering unchanged. -/
theorem computeClusters_walk (ms : List Mark) (hs : List.Sorted markLE ms) :
    (computeClusters ms).map Cluster.marks = groupSpec ms ∧
    computeClusters (List.insertionSort markLE ms) = computeClusters ms := by
  constructor
  · cases ms with
    | nil => rfl
    | cons m rest =>
      obtain ⟨t, gs, h⟩ := groupSpec_head_cons rest m
      rw [computeClusters, clusterLoop_eq_groupSpec rest m [m] t gs h, h, List.map_map]
      have hid : Cluster.marks ∘ finaliseCluster = id := rfl
      rw [hid, List.map_id]
      simp
  · rw [List.Sorted.insertionSort_eq hs]

/-- Witness for C6: two marks, sorted by index, 1 degree apart. -/
theorem computeClusters_walk_witness :
    List.Sorted markLE [Mark.mk 0 0 0, Mark.mk 1 1 1] ∧
    ((computeClusters [Mark.mk 0 0 0, Mark.mk 1 1 1]).map Cluster.marks
        = groupSpec [Mark.mk 0 0 0, Mark.mk 1 1 1] ∧
      computeClusters (List.insertionSort markLE [Mark.mk 0 0 0, Mark.mk 1 1 1])
        = computeClusters [Mark.mk 0 0 0, Mark.mk 1 1 1]) :=
  ⟨by simp [markLE], computeClusters_walk _ (by simp [markLE])⟩

/-- Counterexample to claim C5 as stated: two marks at the same spatial
coordinate with different route positions (indices 0 and 1 — distinct
route fractions on a self-intersecting route) are merged into ONE cluster,
not two, because clustering joins consecutive marks within the threshold;
and when two same-coordinate marks ARE split into distinct clusters (an
intermediate far mark), the two clusters' centres coincide, so the
proximity trigger regions overlap — there are no route-fraction windows in
the code. -/
theorem sameCoord_clusters_counterexample :
    (computeClusters [Mark.mk 0 0 0, Mark.mk 1 0 0]).length = 1 ∧
    (computeClusters [Mark.mk 0 0 0, Mark.mk 1 1 1, Mark.mk 2 0 0]).map Cluster.center
      = [(0, 0), (1, 1), (0, 0)] ∧
    sqDist 0 0 0 0 < POPUP_THRESHOLD * POPUP_THRESHOLD := by
  have hzero : sqDist 0 0 0 0 < CLUSTER_THRESHOLD * CLUSTER_THRESHOLD := by
    norm_num [sqDist, CLUSTER_THRESHOLD]
  refine ⟨?_, ?_, by norm_num [sqDist, POPUP_THRESHOLD]⟩
  · rw [computeClusters, clusterLoop_cons, if_pos hzero, clusterLoop_nil]
    rfl
  · norm_num [computeClusters, clusterLoop_cons, clusterLoop_nil, sqDist,
      CLUSTER_THRESHOLD, finaliseCluster]

/-- Claim C5 (amended): two marks at the same spatial coordinate and
different route positions land in the same cluster when adjacent in the
mark sequence; when separated by an intermediate mark beyond the cluster
threshold they form distinct (singleton) clusters, but those clusters'
centres coincide, so their proximity trigger disks overlap — duplicate
triggering is prevented by the sequential cursor, not by disjoint
windows. -/
theorem sameCoord_clusters_amended
    (lng lat midLng midLat : ℚ) (i j k : ℕ)
    (hfar : CLUSTER_THRESHOLD * CLUSTER_THRESHOLD ≤ sqDist lng lat midLng midLat) :
    (computeClusters [Mark.mk i lng lat, Mark.mk j lng lat]).length = 1 ∧
    computeClusters [Mark.mk i lng lat, Mark.mk j midLng midLat, Mark.mk k lng lat]
      = [finaliseCluster [Mark.mk i lng lat], finaliseCluster [Mark.mk j midLng midLat],
         finaliseCluster [Mark.mk k lng lat]] ∧
    (finaliseCluster [Mark.mk i lng lat]).center
      = (finaliseCluster [Mark.mk k lng lat]).center ∧
    sqDist (finaliseCluster [Mark.mk i lng lat]).center.1
        (finaliseCluster [Mark.mk i lng lat]).center.2
        (finaliseCluster [Mark.mk k lng lat]).center.1
        (finaliseCluster [Mark.mk k lng lat]).center.2
      < POPUP_THRESHOLD * POPUP_THRESHOLD := by
  have hzero : sqDist lng lat lng lat < CLUSTER_THRESHOLD * CLUSTER_THRESHOLD := by
    norm_num [sqDist, CLUSTER_THRESHOLD]
  have hnear : ¬ CLUSTER_THRESHOLD * CLUSTER_THRESHOLD ≤ sqDist lng lat lng lat := not_le.2 hzero
  have hfar1 : ¬ sqDist lng lat midLng midLat < CLUSTER_THRESHOLD * CLUSTER_THRESHOLD :=
    not_lt.2 hfar
  have hsymm : sqDist midLng midLat lng lat = sqDist lng lat midLng midLat := by
    unfold sqDist; ring
  have hfar2 : ¬ sqDist midLng midLat lng lat < CLUSTER_THRESHOLD * CLUSTER_THRESHOLD := by
    rw [hsymm]; exact hfar1
  refine ⟨?_, ?_, rfl, ?_⟩
  · rw [computeClusters, clusterLoop_cons, if_pos hzero, clusterLoop_nil]
    rfl
  · rw [computeClusters, clusterLoop_cons, if_neg hfar1, clusterLoop_cons,
      if_neg hfar2, clusterLoop_nil]
    rfl
  · norm_num [sqDist, POPUP_THRESHOLD, finaliseCluster]

/-- Witness for the amended C5 at coordinate (0,0) with far mark (1,1). -/
theorem sameCoord_clusters_amended_witness :
    CLUSTER_THRESHOLD * CLUSTER_THRESHOLD ≤ sqDist 0 0 1 1 ∧
    ((computeClusters [Mark.mk 0 0 0, Mark.mk 2 0 0]).length = 1 ∧
      computeClusters [Mark.mk 0 0 0, Mark.mk 2 1 1, Mark.mk 4 0 0]
        = [finaliseCluster [Mark.mk 0 0 0], finaliseCluster [Mark.mk 2 1 1],
           finaliseCluster [Mark.mk 4 0 0]] ∧
      (finaliseCluster [Mark.mk 0 0 0]).center
        = (finaliseCluster [Mark.mk 4 0 0]).center ∧
      sqDist (finaliseCluster [Mark.mk 0 0 0]).center.1
          (finaliseCluster [Mark.mk 0 0 0]).center.2
          (finaliseCluster [Mark.mk 4 0 0]).center.1
          (finaliseCluster [Mark.mk 4 0 0]).center.2
        < POPUP_THRESHOLD * POPUP_THRESHOLD) :=
  ⟨by norm_num [sqDist, CLUSTER_THRESHOLD],
    sameCoord_clusters_amended 0 0 1 1 0 2 4 (by norm_num [sqDist, CLUSTER_THRESHOLD])⟩

/-- Helper: `showIndices` distributes over event-list concatenation. -/
theorem showIndices_append (l1 l2 : List PopupEvent) :
    showIndices (l1 ++ l2) = showIndices l1 ++ showIndices l2 := by
  simp [showIndices, List.filterMap_append]

/-- Helper: running a concatenated input sequence is running its parts in
order, concatenating the events. -/
theorem runUpdates_append (clusters : List SeqCluster) (l1 l2 : List HeadInput) :
    ∀ s : GeoState,
      runUpdates clusters (l1 ++ l2) s
        = ((runUpdates clusters l2 (runUpdates clusters l1 s).1).1,
           (runUpdates clusters l1 s).2
             ++ (runUpdates clusters l2 (runUpdates clusters l1 s).1).2) := by
  induction l1 with
  | nil => intro s; simp [runUpdates]
  | cons inp rest ih =>
    intro s
    rw [List.cons_append, runUpdates, runUpdates, ih]
    simp [List.append_assoc]

/-- Helper: one `active = true` call on a state satisfying the cursor
invariant preserves it, never moves the cursor backwards, never lowers the
floor for future show indices, and emits at most one `shown` event — at
the cursor, in range, and raising the floor past itself. -/
theorem step_active (clusters : List SeqCluster) (lng lat phase : ℚ) (s : GeoState)
    (hc : CursorInv clusters s) :
    CursorInv clusters (updateHeadPosition clusters lng lat phase true s).1 ∧
    s.nextClusterIdx ≤ (updateHeadPosition clusters lng lat phase true s).1.nextClusterIdx ∧
    lowerShowBound s ≤ lowerShowBound (updateHeadPosition clusters lng lat phase true s).1 ∧
    (showIndices (updateHeadPosition clusters lng lat phase true s).2 = [] ∨
      ∃ i, showIndices (updateHeadPosition clusters lng lat phase true s).2 = [i] ∧
        i = s.nextClusterIdx ∧ i < clusters.length ∧ lowerShowBound s ≤ i ∧
        lowerShowBound (updateHeadPosition clusters lng lat phase true s).1 = i + 1) := by
  obtain ⟨hw, hA⟩ := hc
  have hred : updateHeadPosition clusters lng lat phase true s
      = (if clusters.length ≤ s.nextClusterIdx then (s, [])
         else if 0 ≤ s.activeClusterIdx then
           if POPUP_THRESHOLD * POPUP_THRESHOLD ≤
               sqDist lng lat (clusters.getD s.activeClusterIdx.toNat default).center.1
                 (clusters.getD s.activeClusterIdx.toNat default).center.2 then
             ({ s with nextClusterIdx := s.activeClusterIdx.toNat + 1, activeClusterIdx := -1 },
              [.hidden])
           else (s, [])
         else if sqDist lng lat (clusters.getD s.nextClusterIdx default).center.1
               (clusters.getD s.nextClusterIdx default).center.2
             < POPUP_THRESHOLD * POPUP_THRESHOLD then
           ({ s with activeClusterIdx := (s.nextClusterIdx : ℤ) }, [.shown s.nextClusterIdx])
         else (s, [])) := by
    simp [updateHeadPosition, hw]
  rw [hred]
  split_ifs with h1 h2 h3 h4
  · exact ⟨⟨hw, hA⟩, le_refl _, le_refl _, Or.inl rfl⟩
  · obtain ⟨hEq, hLt⟩ := hA h2
    refine ⟨⟨hw, ?_⟩, ?_, ?_, Or.inl rfl⟩
    · intro h
      norm_num at h
    · show s.nextClusterIdx ≤ s.activeClusterIdx.toNat + 1
      omega
    · show lowerShowBound s
        ≤ lowerShowBound { s with nextClusterIdx := s.activeClusterIdx.toNat + 1,
                                  activeClusterIdx := -1 }
      simp only [lowerShowBound, if_pos h2]
      norm_num
  · exact ⟨⟨hw, hA⟩, le_refl _, le_refl _, Or.inl rfl⟩
  · have hnn : (0 : ℤ) ≤ (s.nextClusterIdx : ℤ) := Int.natCast_nonneg _
    have hlow : lowerShowBound { s with activeClusterIdx := (s.nextClusterIdx : ℤ) }
        = s.nextClusterIdx + 1 := by
      simp [lowerShowBound, hnn]
    refine ⟨⟨hw, ?_⟩, le_refl _, ?_, Or.inr ⟨s.nextClusterIdx, by simp [showIndices], rfl,
      by omega, ?_, ?_⟩⟩
    · intro _
      refine ⟨rfl, ?_⟩
      show s.nextClusterIdx < clusters.length
      omega
    · show lowerShowBound s ≤ lowerShowBound { s with activeClusterIdx := (s.nextClusterIdx : ℤ) }
      rw [hlow]
      simp only [lowerShowBound, if_neg h2]
      omega
    · show lowerShowBound s ≤ s.nextClusterIdx
      simp only [lowerShowBound, if_neg h2]
      exact le_refl _
    · show lowerShowBound { s with activeClusterIdx := (s.nextClusterIdx : ℤ) }
        = s.nextClusterIdx + 1
      exact hlow
  · exact ⟨⟨hw, hA⟩, le_refl _, le_refl _, Or.inl rfl⟩

/-- Helper: unfolding equation of `runUpdates` on a first input. -/
theorem runUpdates_cons (clusters : List SeqCluster) (inp : HeadInput)
    (rest : List HeadInput) (s : GeoState) :
    runUpdates clusters (inp :: rest) s
      = ((runUpdates clusters rest
            (updateHeadPosition clusters inp.lng inp.lat inp.phase true s).1).1,
         (updateHeadPosition clusters inp.lng inp.lat inp.phase true s).2
           ++ (runUpdates clusters rest
                 (updateHeadPosition clusters inp.lng inp.lat inp.phase true s).1).2) := rfl

/-- Helper: an `active = true` call on an inactive-marked state (the
transition frame) recalibrates the cursor from the phase, establishes the
cursor invariant, and emits at most one in-range `shown` event. -/
theorem step_inactive (clusters : List SeqCluster) (lng lat phase : ℚ) (s : GeoState)
    (hw : s.wasInactive = true) :
    CursorInv clusters (updateHeadPosition clusters lng lat phase true s).1 ∧
    (updateHeadPosition clusters lng lat phase true s).1.nextClusterIdx
      = firstSeqIdx phase clusters ∧
    (showIndices (updateHeadPosition clusters lng lat phase true s).2 = [] ∨
      ∃ i, showIndices (updateHeadPosition clusters lng lat phase true s).2 = [i] ∧
        i < clusters.length ∧
        lowerShowBound (updateHeadPosition clusters lng lat phase true s).1 = i + 1) := by
  have hred : updateHeadPosition clusters lng lat phase true s
      = (if clusters.length ≤ firstSeqIdx phase clusters then
           ({ nextClusterIdx := firstSeqIdx phase clusters, activeClusterIdx := -1,
              wasInactive := false }, [])
         else if sqDist lng lat (clusters.getD (firstSeqIdx phase clusters) default).center.1
               (clusters.getD (firstSeqIdx phase clusters) default).center.2
             < POPUP_THRESHOLD * POPUP_THRESHOLD then
           ({ nextClusterIdx := firstSeqIdx phase clusters,
              activeClusterIdx := (firstSeqIdx phase clusters : ℤ),
              wasInactive := false }, [.shown (firstSeqIdx phase clusters)])
         else ({ nextClusterIdx := firstSeqIdx phase clusters, activeClusterIdx := -1,
                 wasInactive := false }, [])) := by
    simp [updateHeadPosition, hw, recalibrateCursor]
  rw [hred]
  split_ifs with h1 h4
  · exact ⟨⟨rfl, by intro h; norm_num at h⟩, rfl, Or.inl rfl⟩
  · have hnn : (0 : ℤ) ≤ (firstSeqIdx phase clusters : ℤ) := Int.natCast_nonneg _
    refine ⟨⟨rfl, ?_⟩, rfl,
      Or.inr ⟨firstSeqIdx phase clusters, by simp [showIndices], by omega, ?_⟩⟩
    · intro _
      refine ⟨rfl, ?_⟩
      show firstSeqIdx phase clusters < clusters.length
      omega
    · show lowerShowBound
          (GeoState.mk (firstSeqIdx phase clusters) (firstSeqIdx phase clusters : ℤ) false)
        = firstSeqIdx phase clusters + 1
      simp [lowerShowBound, hnn]
  · exact ⟨⟨rfl, by intro h; norm_num at h⟩, rfl, Or.inl rfl⟩

/-- Helper: over any all-active run from an invariant state, the cursor
never decreases, the show floor never decreases, every `shown` index is in
range at or above the initial floor, and the show indices strictly
increase. -/
theorem run_active (clusters : List SeqCluster) (inputs : List HeadInput) :
    ∀ s : GeoState, CursorInv clusters s →
      CursorInv clusters (runUpdates clusters inputs s).1 ∧
      s.nextClusterIdx ≤ (runUpdates clusters inputs s).1.nextClusterIdx ∧
      lowerShowBound s ≤ lowerShowBound (runUpdates clusters inputs s).1 ∧
      (∀ i ∈ showIndices (runUpdates clusters inputs s).2,
        lowerShowBound s ≤ i ∧ i < clusters.length) ∧
      List.Chain' (· < ·) (showIndices (runUpdates clusters inputs s).2) := by
  induction inputs with
  | nil =>
    intro s hc
    exact ⟨hc, le_refl _, le_refl _, by simp [runUpdates, showIndices],
      by simp [runUpdates, showIndices]⟩
  | cons inp rest ih =>
    intro s hc
    obtain ⟨hc1, hn1, hl1, hsh1⟩ := step_active clusters inp.lng inp.lat inp.phase s hc
    obtain ⟨hc2, hn2, hl2, hmem2, hch2⟩ := ih _ hc1
    rw [runUpdates_cons]
    refine ⟨hc2, hn1.trans hn2, hl1.trans hl2, ?_, ?_⟩
    · intro i hi
      rw [showIndices_append] at hi
      rcases List.mem_append.1 hi with h | h
      · cases hsh1 with
        | inl he => rw [he] at h; simp at h
        | inr hj =>
          obtain ⟨j, hev, hjn, hjlen, hjlow, hlr⟩ := hj
          rw [hev, List.mem_singleton] at h
          subst h
          exact ⟨hjlow, hjlen⟩
      · have h2 := hmem2 i h
        exact ⟨hl1.trans h2.1, h2.2⟩
    · rw [showIndices_append]
      cases hsh1 with
      | inl he => rw [he]; simpa using hch2
      | inr hj =>
        obtain ⟨j, hev, hjn, hjlen, hjlow, hlr⟩ := hj
        rw [hev, List.singleton_append]
        refine List.chain'_cons'.2 ⟨?_, hch2⟩
        intro y hy
        have hmem := List.mem_of_mem_head? hy
        have h2 := (hmem2 y hmem).1
        omega

/-- Helper: any all-active run from the reset state has strictly
increasing, in-range show indices, and (when nonempty) ends in a state
satisfying the cursor invariant. -/
theorem run_reset (clusters : List SeqCluster) (inputs : List HeadInput) :
    List.Chain' (· < ·) (showIndices (runUpdates clusters inputs resetPopup).2) ∧
    (∀ i ∈ showIndices (runUpdates clusters inputs resetPopup).2, i < clusters.length) ∧
    (inputs = [] ∨ CursorInv clusters (runUpdates clusters inputs resetPopup).1) := by
  cases inputs with
  | nil =>
    exact ⟨by simp [runUpdates, showIndices], by simp [runUpdates, showIndices], Or.inl rfl⟩
  | cons inp rest =>
    obtain ⟨hcI, hnI, hshI⟩ := step_inactive clusters inp.lng inp.lat inp.phase resetPopup rfl
    obtain ⟨hc2, hn2, hl2, hmem2, hch2⟩ := run_active clusters rest _ hcI
    rw [runUpdates_cons]
    refine ⟨?_, ?_, Or.inr hc2⟩
    · rw [showIndices_append]
      cases hshI with
      | inl he => rw [he]; simpa using hch2
      | inr hj =>
        obtain ⟨j, hev, hjlen, hlr⟩ := hj
        rw [hev, List.singleton_append]
        refine List.chain'_cons'.2 ⟨?_, hch2⟩
        intro y hy
        have hmem := List.mem_of_mem_head? hy
        have h2 := (hmem2 y hmem).1
        omega
    · intro i hi
      rw [showIndices_append] at hi
      rcases List.mem_append.1 hi with h | h
      · cases hshI with
        | inl he => rw [he] at h; simp at h
        | inr hj =>
          obtain ⟨j, hev, hjlen, hlr⟩ := hj
          rw [hev, List.mem_singleton] at h
          subst h
          exact hjlen
      · exact (hmem2 i h).2

/-- Claim C4 (amended): over any all-active run from the reset state with
any cluster sequence, (1) the geofence cursor never decreases; (2) the
`shown` indices of the whole run strictly increase, so every cluster is
shown AT MOST once (a cluster whose proximity disk the head never enters
is never shown at all); (3) continuing a run never shows a cluster whose
index is below the cursor reached so far; (4) on an active-marked state an
update is independent of the phase (no re-derivation of the cursor), and
(5) on an inactive-marked state the cursor is re-derived from the current
phase as the first index with `seqFraction ≥ phase - 0.02`. -/
theorem geofence_cursor_props (clusters : List SeqCluster) (pre post : List HeadInput)
    (lng lat phase phase' : ℚ) (s : GeoState) (hw : s.wasInactive = false) :
    (runUpdates clusters pre resetPopup).1.nextClusterIdx
      ≤ (runUpdates clusters (pre ++ post) resetPopup).1.nextClusterIdx ∧
    List.Chain' (· < ·) (showIndices (runUpdates clusters (pre ++ post) resetPopup).2) ∧
    (∀ i ∈ showIndices
        (runUpdates clusters post (runUpdates clusters pre resetPopup).1).2,
      (runUpdates clusters pre resetPopup).1.nextClusterIdx ≤ i) ∧
    updateHeadPosition clusters lng lat phase true s
      = updateHeadPosition clusters lng lat phase' true s ∧
    (∀ t : GeoState, t.wasInactive = true →
      (updateHeadPosition clusters lng lat phase true t).1.nextClusterIdx
        = firstSeqIdx phase clusters) := by
  refine ⟨?_, (run_reset clusters (pre ++ post)).1, ?_, ?_, ?_⟩
  · rw [runUpdates_append]
    rcases (run_reset clusters pre).2.2 with hnil | hc
    · subst hnil
      exact Nat.zero_le _
    · exact (run_active clusters post _ hc).2.1
  · rcases (run_reset clusters pre).2.2 with hnil | hc
    · subst hnil
      intro i _
      exact Nat.zero_le i
    · intro i hi
      have h := ((run_active clusters post _ hc).2.2.2.1) i hi
      have hlow : (runUpdates clusters pre resetPopup).1.nextClusterIdx
          ≤ lowerShowBound (runUpdates clusters pre resetPopup).1 := by
        obtain ⟨hwst, hAi⟩ := hc
        by_cases ha : 0 ≤ (runUpdates clusters pre resetPopup).1.activeClusterIdx
        · obtain ⟨hEq, _⟩ := hAi ha
          simp only [lowerShowBound, if_pos ha]
          omega
        · simp only [lowerShowBound, if_neg ha]
          exact le_refl _
      exact hlow.trans h.1
  · simp only [updateHeadPosition, hw]
    norm_num
  · intro t ht
    exact (step_inactive clusters lng lat phase t ht).2.1

/-- Witness for the amended C4 on a one-cluster sequence: a two-call run
in which the head passes through the cluster's proximity disk. -/
theorem geofence_cursor_props_witness :
    (GeoState.mk 3 (-1) false).wasInactive = false ∧
    ((runUpdates [SeqCluster.mk (0, 0) [] 0] [HeadInput.mk 0 0 0] resetPopup).1.nextClusterIdx
      ≤ (runUpdates [SeqCluster.mk (0, 0) [] 0]
          ([HeadInput.mk 0 0 0] ++ [HeadInput.mk 1 1 1]) resetPopup).1.nextClusterIdx ∧
    List.Chain' (· < ·) (showIndices (runUpdates [SeqCluster.mk (0, 0) [] 0]
        ([HeadInput.mk 0 0 0] ++ [HeadInput.mk 1 1 1]) resetPopup).2) ∧
    (∀ i ∈ showIndices
        (runUpdates [SeqCluster.mk (0, 0) [] 0] [HeadInput.mk 1 1 1]
          (runUpdates [SeqCluster.mk (0, 0) [] 0] [HeadInput.mk 0 0 0] resetPopup).1).2,
      (runUpdates [SeqCluster.mk (0, 0) [] 0]
          [HeadInput.mk 0 0 0] resetPopup).1.nextClusterIdx ≤ i) ∧
    updateHeadPosition [SeqCluster.mk (0, 0) [] 0] 2 2 (1/4) true (GeoState.mk 3 (-1) false)
      = updateHeadPosition [SeqCluster.mk (0, 0) [] 0] 2 2 (3/4) true (GeoState.mk 3 (-1) false) ∧
    (∀ t : GeoState, t.wasInactive = true →
      (updateHeadPosition [SeqCluster.mk (0, 0) [] 0] 2 2 (1/4) true t).1.nextClusterIdx
        = firstSeqIdx (1/4) [SeqCluster.mk (0, 0) [] 0])) :=
  ⟨rfl, geofence_cursor_props [SeqCluster.mk (0, 0) [] 0]
    [HeadInput.mk 0 0 0] [HeadInput.mk 1 1 1] 2 2 (1/4) (3/4)
    (GeoState.mk 3 (-1) false) rfl⟩

/-- Counterexample to claim C4 as stated: with one cluster (centred at the
origin) and an all-active, phase-monotone run whose head positions stay
outside the proximity disk, the run emits no events at all — the cluster
undergoes ZERO show/hide cycles, not "exactly one". -/
theorem geofence_exactly_one_counterexample :
    (runUpdates [SeqCluster.mk (0, 0) [] 0]
        [HeadInput.mk 100 100 0, HeadInput.mk 100 100 1] resetPopup).2 = [] ∧
    ¬ (showIndices (runUpdates [SeqCluster.mk (0, 0) [] 0]
        [HeadInput.mk 100 100 0, HeadInput.mk 100 100 1] resetPopup).2).count 0 = 1 := by
  have hrun : runUpdates [SeqCluster.mk (0, 0) [] 0]
      [HeadInput.mk 100 100 0, HeadInput.mk 100 100 1] resetPopup
      = (GeoState.mk 0 (-1) false, []) := by
    norm_num [runUpdates, updateHeadPosition, resetPopup, recalibrateCursor,
      firstSeqIdx, sqDist, POPUP_THRESHOLD, List.getD]
  rw [hrun]
  exact ⟨rfl, by norm_num [showIndices]⟩

end MaratonCali
